import Mathlib

/-!
# go-job-queue: a shallow embedding of the queue, the job model and the worker

The embedding follows `models/job.go`, `queue/queue.go`, `workers/workers.go`
and the statistics loop of `handlers/handlers.go`.

Modelling conventions.

* `*models.Job` is an address (`Ptr`) into a memory of `Job` objects, so that
  the store (`jobs`) and the dispatch channel (`jobChan`) share the objects
  they refer to, as the Go program does.
* `map[string]*models.Job` is an association list with unique keys; Go's
  iteration order is unspecified, so results about `GetAllJobs` are stated for
  every permutation of the enumeration.
* `chan *models.Job` is a FIFO list with a capacity, a closed flag and the
  number of receivers blocked in `<-ch`.  A send inside
  `select { case ch <- x: ... default: ... }` panics when the channel is
  closed, hands the value to a blocked receiver when there is one, appends
  when the buffer has room, and takes the `default` branch otherwise.
* every `time.Now()` is a reading supplied by the environment: an operation
  takes a `Clock`, the sequence of readings it will observe.
* `simulateJobExecution` sleeps and draws a random number; its result is the
  boolean `success` supplied by the environment.
* Go `int` is 64 bits wide: a value is an `Int`, and `job.RetryCount++` is
  `intInc`, which wraps from `2^63 - 1` to `-2^63`.
* console output (`fmt.Printf`, `fmt.Println`) is not part of the state.
-/

namespace JobQueueModel

/-! ## models/job.go -/

/-- JobStatus is `type JobStatus string`. -/
abbrev JobStatus := String

def StatusPending : JobStatus := "PENDING"
def StatusProcessing : JobStatus := "PROCESSING"
def StatusDone : JobStatus := "DONE"
def StatusFailed : JobStatus := "FAILED"

/-- One reading of the wall clock: the instant in nanoseconds since the epoch
and the two renderings of that instant that the program asks for (they depend
on the time zone of the host). -/
structure Time where
  unixNano : Nat
  /-- rendering under the layout `2006-01-02 15:04:05` (used by `addLog`) -/
  stamp : String
  /-- rendering under the layout `20060102150405` (used by `generateID`) -/
  compact : String
deriving DecidableEq, Repr

/-- The readings that successive calls of `time.Now()` return. -/
abbrev Clock := Nat → Time

/-- The clock as seen after `n` readings have been consumed. -/
def Clock.drop (clk : Clock) (n : Nat) : Clock := fun i => clk (n + i)

/-- The least and the greatest value of a Go `int` (64 bits). -/
def minInt : Int := -9223372036854775808

def maxInt : Int := 9223372036854775807

/-- `x++` on a Go `int`: the successor, wrapping from `maxInt` to `minInt`. -/
def intInc (x : Int) : Int := if x = maxInt then minInt else x + 1

structure Job where
  ID : String
  /-- the field `Type` of the Go struct (a reserved word here) -/
  Type_ : String
  Payload : String
  Status : JobStatus
  RetryCount : Int
  MaxRetries : Int
  CreatedAt : Time
  UpdatedAt : Time
  ErrorMsg : String
deriving DecidableEq, Repr

def letters : List Char := "abcdefghijklmnopqrstuvwxyz0123456789".toList

/-- randomString: `n` characters, the `i`-th being
`letters[time.Now().UnixNano() % len(letters)]` at the `i`-th reading. -/
def randomString (clk : Clock) (n : Nat) : String :=
  String.mk ((List.range n).map (fun i => letters.getD ((clk i).unixNano % letters.length) 'a'))

/-- generateID: one reading for the date part, then six for the suffix. -/
def generateID (clk : Clock) : String :=
  (clk 0).compact ++ "-" ++ randomString (clk.drop 1) 6

/-- NewJob: the record that `NewJob(jobType, payload)` builds. -/
def NewJob (clk : Clock) (jobType payload : String) : Job :=
  { ID := generateID (clk.drop 1)
    Type_ := jobType
    Payload := payload
    Status := StatusPending
    RetryCount := 0
    MaxRetries := 3
    CreatedAt := clk 0
    UpdatedAt := clk 0
    ErrorMsg := "" }

/-! ## queue/queue.go -/

/-- A `*models.Job`. -/
abbrev Ptr := Nat

/-- A `chan *models.Job` made by `make(chan *models.Job, cap)`. -/
structure Chan where
  buf : List Ptr
  cap : Nat
  closed : Bool
  /-- the number of goroutines blocked in a receive on this channel -/
  waiting : Nat
deriving DecidableEq, Repr

/-- How a call ends: it returns a value, or it panics. -/
inductive Outcome (α : Type) where
  | ret (v : α)
  | panic (msg : String)
deriving DecidableEq, Repr

/-- The non-blocking send `select { case c <- p: (true) default: (false) }`;
`none` is the run-time panic "send on closed channel".  A receiver can be
blocked only while the buffer is empty; the send then hands `p` to it (the
receiver resumes with `p`, the buffer stays empty).  Otherwise `p` goes to the
tail of the buffer if there is room, and the send is refused if not. -/
def Chan.trySend (c : Chan) (p : Ptr) : Option (Chan × Bool) :=
  if c.closed then none
  else if 0 < c.waiting ∧ c.buf = [] then some ({ c with waiting := c.waiting - 1 }, true)
  else if c.buf.length < c.cap then some ({ c with buf := c.buf ++ [p] }, true)
  else some (c, false)

/-- A receive `job, ok := <-c` that does not block: the oldest buffered item.
`none` when the buffer is empty (the receiver blocks, or sees `ok = false`
when the channel is closed). -/
def Chan.recv (c : Chan) : Option (Ptr × Chan) :=
  match c.buf with
  | [] => none
  | p :: rest => some (p, { c with buf := rest })

/-- The state of a `JobQueue` together with the `Job` objects its pointers
refer to (`mem`) and the next unused address (`next`). -/
structure JobQueue where
  mem : Ptr → Job
  next : Ptr
  jobs : AList (fun _ : String => Ptr)
  jobChan : Chan
  logs : List String

/-- Allocation of a new `Job` object (`&Job{...}`). -/
def JobQueue.alloc (q : JobQueue) (j : Job) : JobQueue × Ptr :=
  ({ q with mem := Function.update q.mem q.next j, next := q.next + 1 }, q.next)

def emptyJob : Job :=
  { ID := "", Type_ := "", Payload := "", Status := "", RetryCount := 0, MaxRetries := 0
    CreatedAt := ⟨0, "", ""⟩, UpdatedAt := ⟨0, "", ""⟩, ErrorMsg := "" }

def NewJobQueue (bufferSize : Nat) : JobQueue :=
  { mem := fun _ => emptyJob
    next := 0
    jobs := ∅
    jobChan := { buf := [], cap := bufferSize, closed := false, waiting := 0 }
    logs := [] }

/-- addLog: one reading of the clock, one line
`fmt.Sprintf("[%s] %s", timestamp, message)` appended. -/
def addLog (q : JobQueue) (clk : Clock) (message : String) : JobQueue :=
  { q with logs := q.logs ++ ["[" ++ (clk 0).stamp ++ "] " ++ message] }

def enqueueMsg (j : Job) : String :=
  "[ENQUEUE] Job " ++ j.ID ++ " (" ++ j.Type_ ++ ") ditambahkan ke queue"

def queueFullError : String := "queue penuh, job tidak bisa ditambahkan"

def sendOnClosed : String := "send on closed channel"

/-- AddJob: the result is `nil` (`none`) or an error (`some msg`). -/
def AddJob (q : JobQueue) (clk : Clock) (job : Ptr) : JobQueue × Outcome (Option String) :=
  let q1 : JobQueue := { q with jobs := q.jobs.insert (q.mem job).ID job }
  let q2 := addLog q1 clk (enqueueMsg (q1.mem job))
  match q2.jobChan.trySend job with
  | none => (q2, Outcome.panic sendOnClosed)
  | some (c, true) => ({ q2 with jobChan := c }, Outcome.ret none)
  | some (_, false) => (q2, Outcome.ret (some queueFullError))

def updateMsg (jobID : String) (status : JobStatus) (errorMsg : String) : String :=
  let logMsg := "[UPDATE] Job " ++ jobID ++ " status: " ++ status
  if errorMsg ≠ "" then logMsg ++ (" (error: " ++ errorMsg ++ ")") else logMsg

/-- UpdateJobStatus: two readings of the clock when the job exists. -/
def UpdateJobStatus (q : JobQueue) (clk : Clock) (jobID : String) (status : JobStatus)
    (errorMsg : String) : JobQueue :=
  match q.jobs.lookup jobID with
  | some job =>
    let j := q.mem job
    let j1 := { j with Status := status, UpdatedAt := clk 0 }
    let j2 := if errorMsg ≠ "" then { j1 with ErrorMsg := errorMsg } else j1
    addLog { q with mem := Function.update q.mem job j2 } (clk.drop 1)
      (updateMsg jobID status errorMsg)
  | none => q

def maxRetriesMsg : String := "Max retries exceeded"

/-- RetryJob. -/
def RetryJob (q : JobQueue) (clk : Clock) (jobID : String) : JobQueue × Outcome Bool :=
  match q.jobs.lookup jobID with
  | none => (q, Outcome.ret false)
  | some job =>
    let j := q.mem job
    let j1 := { j with RetryCount := intInc j.RetryCount }
    let q1 : JobQueue := { q with mem := Function.update q.mem job j1 }
    if j1.RetryCount > j1.MaxRetries then
      let q2 := addLog q1 clk
        ("[RETRY] Job " ++ jobID ++ " gagal setelah " ++ toString j1.MaxRetries ++ " kali retry")
      (UpdateJobStatus q2 (clk.drop 1) jobID StatusFailed maxRetriesMsg, Outcome.ret false)
    else
      let q2 := addLog q1 clk
        ("[RETRY] Job " ++ jobID ++ " retry ke-" ++ toString j1.RetryCount)
      let j2 := { j1 with Status := StatusPending, UpdatedAt := clk 1 }
      let q3 : JobQueue := { q2 with mem := Function.update q2.mem job j2 }
      match q3.jobChan.trySend job with
      | none => (q3, Outcome.panic sendOnClosed)
      | some (c, sent) => ({ q3 with jobChan := c }, Outcome.ret sent)

/-- GetAllJobs: the stored pointers, in the enumeration order of the map. -/
def GetAllJobs (q : JobQueue) : List Ptr := q.jobs.entries.map (fun e => e.2)

/-- GetJob. -/
def GetJob (q : JobQueue) (jobID : String) : Option Ptr := q.jobs.lookup jobID

/-- GetLogs: a copy of the log. -/
def GetLogs (q : JobQueue) : List String := q.logs

def closeOfClosed : String := "close of closed channel"

/-- Close: `close(q.jobChan)` panics on a closed channel; otherwise it marks
the channel closed and wakes the blocked receivers. -/
def Close (q : JobQueue) (clk : Clock) : JobQueue × Outcome Unit :=
  if q.jobChan.closed then (q, Outcome.panic closeOfClosed)
  else (addLog { q with jobChan := { q.jobChan with closed := true, waiting := 0 } } clk
          "[SYSTEM] Queue ditutup",
        Outcome.ret ())

/-! ## workers/workers.go -/

/-- The state in which `processJob` calls `simulateJobExecution`: the job has
been marked `PROCESSING`. -/
def inFlight (q : JobQueue) (clk : Clock) (job : Ptr) : JobQueue :=
  UpdateJobStatus q clk (q.mem job).ID StatusProcessing ""

/-- processJob, with `success` the result of `simulateJobExecution`. -/
def processJob (q : JobQueue) (clk : Clock) (job : Ptr) (success : Bool) :
    JobQueue × Outcome Unit :=
  let id := (q.mem job).ID
  let q1 := inFlight q clk job
  if success then
    (UpdateJobStatus q1 (clk.drop 2) id StatusDone "", Outcome.ret ())
  else
    match RetryJob q1 (clk.drop 2) id with
    | (q2, Outcome.ret _) => (q2, Outcome.ret ())
    | (q2, Outcome.panic msg) => (q2, Outcome.panic msg)

/-- The state after a receive from the dispatch channel (unchanged when there
is nothing to receive). -/
def JobQueue.afterRecv (q : JobQueue) : JobQueue :=
  match q.jobChan.recv with
  | some (_, c) => { q with jobChan := c }
  | none => q

/-- A worker reaches `<-wp.queue.GetJobChannel()` while the channel is empty
and open, and blocks there. -/
def workerBlocks (q : JobQueue) : JobQueue :=
  { q with jobChan := { q.jobChan with waiting := q.jobChan.waiting + 1 } }

/-- One iteration of the `worker` loop that receives a job: the receive and
the call of `processJob`.  `none` when the channel has nothing to deliver. -/
def workerStep (q : JobQueue) (clk : Clock) (success : Bool) :
    Option (JobQueue × Outcome Unit) :=
  match q.jobChan.recv with
  | none => none
  | some (job, c) => some (processJob { q with jobChan := c } clk job success)

/-! ## handlers/handlers.go -/

structure Stats where
  total_jobs : Int
  pending : Int
  processing : Int
  done : Int
  failed : Int
deriving DecidableEq, Repr

/-- The body of the counting loop of `GetStats`. -/
def countJob (st : Stats) (j : Job) : Stats :=
  if j.Status = StatusPending then { st with pending := st.pending + 1 }
  else if j.Status = StatusProcessing then { st with processing := st.processing + 1 }
  else if j.Status = StatusDone then { st with done := st.done + 1 }
  else if j.Status = StatusFailed then { st with failed := st.failed + 1 }
  else st

/-- GetStats on the list `jobs` that `GetAllJobs` returned. -/
def GetStats (q : JobQueue) (jobs : List Ptr) : Stats :=
  jobs.foldl (fun st p => countJob st (q.mem p))
    { total_jobs := jobs.length, pending := 0, processing := 0, done := 0, failed := 0 }

/-- Modelled from the spec: `JobQueue.DeleteJob`, which the handler of
`DELETE /jobs/{id}` calls, has no definition in `queue/queue.go`.  The spec
(Job Store) says: "`Delete(id) -> bool`: removes the record if present;
returns whether removal occurred." -/
def DeleteJob (q : JobQueue) (jobID : String) : JobQueue × Bool :=
  match q.jobs.lookup jobID with
  | some _ => ({ q with jobs := q.jobs.erase jobID }, true)
  | none => (q, false)

/-! ## Runs and concrete scenarios -/

/-- The operations that touch the dispatch channel. -/
inductive QueueOp where
  /-- a `Job` object with the given contents is created, then `AddJob` is
  called on it -/
  | add (clk : Clock) (j : Job)
  | retry (clk : Clock) (jobID : String)
  /-- a worker's receive, taken at the moment it delivers a job (on an empty
  channel nothing is delivered) -/
  | dequeue

/-- A state together with the history of its channel: the jobs whose sends
were accepted and the jobs that were received, both in order of occurrence. -/
structure Trace where
  q : JobQueue
  accepted : List Ptr
  delivered : List Ptr

/-- One operation on a traced state.  A send counts as accepted when `AddJob`
returns `nil`, respectively when `RetryJob` returns `true`. -/
def QueueOp.step (t : Trace) : QueueOp → Trace
  | QueueOp.add clk j =>
    match AddJob (t.q.alloc j).1 clk (t.q.alloc j).2 with
    | (q1, Outcome.ret none) => ⟨q1, t.accepted ++ [(t.q.alloc j).2], t.delivered⟩
    | (q1, _) => ⟨q1, t.accepted, t.delivered⟩
  | QueueOp.retry clk jobID =>
    match t.q.jobs.lookup jobID, RetryJob t.q clk jobID with
    | some p, (q1, Outcome.ret true) => ⟨q1, t.accepted ++ [p], t.delivered⟩
    | _, (q1, _) => ⟨q1, t.accepted, t.delivered⟩
  | QueueOp.dequeue =>
    match t.q.jobChan.recv with
    | some (p, c) => ⟨{ t.q with jobChan := c }, t.accepted, t.delivered ++ [p]⟩
    | none => t

/-- A sequence of operations on a traced state. -/
def runOps (t : Trace) (ops : List QueueOp) : Trace := ops.foldl QueueOp.step t

/-- The traced state of `NewJobQueue(c)`. -/
def Trace.start (c : Nat) : Trace := ⟨NewJobQueue c, [], []⟩

/-- The channel is open, no receiver is blocked (a receive is an operation of
the history, taken when it delivers), the buffer is within the capacity and
holds exactly the accepted jobs that have not been delivered, oldest first. -/
def Trace.Ok (t : Trace) : Prop :=
  (t.q.jobChan.closed = false ∧ t.q.jobChan.waiting = 0) ∧
    t.q.jobChan.buf.length ≤ t.q.jobChan.cap ∧
    t.accepted = t.delivered ++ t.q.jobChan.buf

/-- What a client asks for, with the clocks that `NewJob` and `AddJob` read. -/
structure JobSpec where
  clkJ : Clock
  clk : Clock
  jobType : String
  payload : String

/-- The record `NewJob` builds for a request. -/
def JobSpec.job (s : JobSpec) : Job := NewJob s.clkJ s.jobType s.payload

/-- The completed operations of the running system. -/
inductive Event where
  /-- `job := NewJob(jobType, payload)` followed by `AddJob(job)` -/
  | submit (s : JobSpec)
  /-- a worker receives a job and runs `processJob` on it; `success` is the
  outcome of the execution -/
  | work (clk : Clock) (success : Bool)

def Event.step (q : JobQueue) : Event → JobQueue
  | Event.submit s => (AddJob (q.alloc s.job).1 s.clk (q.alloc s.job).2).1
  | Event.work clk success =>
    match workerStep q clk success with
    | some r => r.1
    | none => q

/-- The state after a sequence of events. -/
def run (q : JobQueue) (evs : List Event) : JobQueue := evs.foldl Event.step q

/-- `n` worker iterations whose executions all succeed; iteration `i` reads
the clock `wclk i`. -/
def successes (wclk : Nat → Clock) (n : Nat) : List Event :=
  (List.range n).map (fun i => Event.work (wclk i) true)

/-- The state after the requests `specs` have been submitted to a new queue of
capacity `c` and the workers have then completed as many iterations as there
are requests, every execution succeeding. -/
def allSucceed (c : Nat) (specs : List JobSpec) (wclk : Nat → Clock) : JobQueue :=
  run (NewJobQueue c) (specs.map Event.submit ++ successes wclk specs.length)

/-- A clock for the concrete scenarios: readings 36 ns apart within one second. -/
def demoClock : Clock :=
  fun i => ⟨1700000000000000000 + 36 * i, "2023-11-14 22:13:20", "20231114221320"⟩

/-- The identifier that `NewJob` produces under `demoClock`. -/
def demoID : String := "20231114221320-iiiiii"

/-- A second clock, one nanosecond later: `NewJob` produces another identifier. -/
def demoClock2 : Clock :=
  fun i => ⟨1700000000000000001 + 36 * i, "2023-11-14 22:13:20", "20231114221320"⟩

/-- The identifier that `NewJob` produces under `demoClock2`. -/
def demoID2 : String := "20231114221320-jjjjjj"

/-- A queue of capacity 1 holding one submitted job (at address 0): the
dispatch channel is full. -/
def demoFull : JobQueue :=
  (AddJob ((NewJobQueue 1).alloc (NewJob demoClock "email" "x")).1 demoClock 0).1

/-- The state of `demoFull` after a second job (address 1) has been created by
`NewJob`: the channel is open and full. -/
def demoFullNew : JobQueue := (demoFull.alloc (NewJob demoClock2 "report" "y")).1

/-- The state in which a worker has received the job of `demoFull` and
`processJob` has marked it `PROCESSING`; the channel is empty again. -/
def demoInFlight : JobQueue :=
  UpdateJobStatus { demoFull with jobChan := { demoFull.jobChan with buf := [] } }
    demoClock demoID StatusProcessing ""

/-- While job 0 is being executed a second job (address 1) is created by
`NewJob`, then submitted and accepted: job 0 is `PROCESSING`, the channel is
full. -/
def demoBusyNew : JobQueue := (demoInFlight.alloc (NewJob demoClock2 "report" "y")).1

def demoBusy : JobQueue := (AddJob demoBusyNew demoClock 1).1

/-- The state of `demoBusy` after `Close`. -/
def demoBusyClosed : JobQueue := (Close demoBusy demoClock).1

/-- The state of `demoFull` after `Close` and the creation of a second job
(address 1) by `NewJob`: the channel is full and closed. -/
def demoFullClosed : JobQueue :=
  ((Close demoFull demoClock).1.alloc (NewJob demoClock2 "report" "y")).1

/-- The state of `demoInFlight` after `Close`: the job is in flight, the
channel is closed. -/
def demoInFlightClosed : JobQueue := (Close demoInFlight demoClock).1

/-- Ten requests whose `NewJob` clocks start one nanosecond apart, so that the
ten identifiers differ. -/
def demoSpecs : List JobSpec :=
  (List.range 10).map (fun i =>
    { clkJ := fun n => ⟨1700000000000000000 + i + 36 * n, "2023-11-14 22:13:20",
        "20231114221320"⟩
      clk := demoClock, jobType := "email", payload := "x" })

/-- A history on a queue of capacity 2: two submissions are accepted, a third
is rejected, job 0 is received and re-submitted by `RetryJob`, job 1 is
received. -/
def demoOps : List QueueOp :=
  [ QueueOp.add demoClock (NewJob demoClock "email" "x"),
    QueueOp.add demoClock (NewJob demoClock2 "report" "y"),
    QueueOp.add demoClock
      (NewJob (fun i => ⟨1700000000000000002 + 36 * i, "2023-11-14 22:13:20", "20231114221320"⟩)
        "notification" "z"),
    QueueOp.dequeue,
    QueueOp.retry demoClock demoID,
    QueueOp.dequeue ]

/-- A clock that starts 3600 ns after `demoClock`, within the same second:
`NewJob` reads other instants but builds the identifier `demoID` again. -/
def demoClockLater : Clock :=
  fun i => ⟨1700000000000003600 + 36 * i, "2023-11-14 22:13:20", "20231114221320"⟩

/-- Two submissions whose identifiers coincide, four failed executions, one
successful execution. -/
def demoCollision : List Event :=
  [ Event.submit ⟨demoClock, demoClock, "email", "x"⟩,
    Event.submit ⟨demoClockLater, demoClock, "email", "x"⟩,
    Event.work demoClock false, Event.work demoClock false,
    Event.work demoClock false, Event.work demoClock false,
    Event.work demoClock true ]

/-- A queue with an unbuffered channel (`NewJobQueue(0)`) on which one worker
is blocked in the receive, and a job (address 0) just created by `NewJob`. -/
def demoUnbuffered : JobQueue :=
  ((workerBlocks (NewJobQueue 0)).alloc (NewJob demoClock "email" "x")).1

/-- On `demoUnbuffered` the job is submitted and handed to the blocked worker,
which marks it `PROCESSING`; a second worker blocks in the receive while the
job is being executed. -/
def demoUnbufferedBusy : JobQueue :=
  workerBlocks (inFlight (AddJob demoUnbuffered demoClock 0).1 demoClock 0)

/-! ## Helper records -/

/-- The record after `job.RetryCount++`. -/
def Job.bumped (j : Job) : Job := { j with RetryCount := intInc j.RetryCount }

/-- The record that `RetryJob` leaves when the retry budget allows another
attempt: counter incremented, status back to pending, `UpdatedAt` refreshed. -/
def Job.retried (j : Job) (t : Time) : Job :=
  { j with RetryCount := intInc j.RetryCount, Status := StatusPending, UpdatedAt := t }

/-! ## Basic facts about the operations -/

/-- The record that `UpdateJobStatus` leaves in place of `j`. -/
def Job.updated (j : Job) (s : JobStatus) (t : Time) (e : String) : Job :=
  { j with Status := s, UpdatedAt := t, ErrorMsg := if e = "" then j.ErrorMsg else e }

section basic

variable (q : JobQueue) (clk : Clock)

@[simp] theorem addLog_mem (m : String) : (addLog q clk m).mem = q.mem := rfl
@[simp] theorem addLog_next (m : String) : (addLog q clk m).next = q.next := rfl
@[simp] theorem addLog_jobs (m : String) : (addLog q clk m).jobs = q.jobs := rfl
@[simp] theorem addLog_jobChan (m : String) : (addLog q clk m).jobChan = q.jobChan := rfl
theorem addLog_logs (m : String) :
    (addLog q clk m).logs = q.logs ++ ["[" ++ (clk 0).stamp ++ "] " ++ m] := rfl

theorem UpdateJobStatus_none {id : String} (s : JobStatus) (e : String)
    (h : q.jobs.lookup id = none) : UpdateJobStatus q clk id s e = q := by
  simp [UpdateJobStatus, h]

theorem UpdateJobStatus_some {id : String} {p : Ptr} (s : JobStatus) (e : String)
    (h : q.jobs.lookup id = some p) :
    UpdateJobStatus q clk id s e =
      addLog { q with mem := Function.update q.mem p ((q.mem p).updated s (clk 0) e) }
        (clk.drop 1) (updateMsg id s e) := by
  by_cases he : e = "" <;> simp [UpdateJobStatus, h, he, Job.updated]

@[simp] theorem UpdateJobStatus_jobs (id : String) (s : JobStatus) (e : String) :
    (UpdateJobStatus q clk id s e).jobs = q.jobs := by
  unfold UpdateJobStatus; split <;> simp

@[simp] theorem UpdateJobStatus_jobChan (id : String) (s : JobStatus) (e : String) :
    (UpdateJobStatus q clk id s e).jobChan = q.jobChan := by
  unfold UpdateJobStatus; split <;> simp

@[simp] theorem UpdateJobStatus_next (id : String) (s : JobStatus) (e : String) :
    (UpdateJobStatus q clk id s e).next = q.next := by
  unfold UpdateJobStatus; split <;> simp

theorem UpdateJobStatus_mem_other {id : String} {p : Ptr} (s : JobStatus) (e : String)
    (h : q.jobs.lookup id = some p) {p' : Ptr} (hne : p' ≠ p) :
    (UpdateJobStatus q clk id s e).mem p' = q.mem p' := by
  rw [UpdateJobStatus_some q clk s e h]; simp [Function.update_noteq hne]

theorem UpdateJobStatus_mem_same {id : String} {p : Ptr} (s : JobStatus) (e : String)
    (h : q.jobs.lookup id = some p) :
    (UpdateJobStatus q clk id s e).mem p = (q.mem p).updated s (clk 0) e := by
  rw [UpdateJobStatus_some q clk s e h]; simp

theorem UpdateJobStatus_logs_grow (id : String) (s : JobStatus) (e : String) :
    q.logs <+: (UpdateJobStatus q clk id s e).logs := by
  unfold UpdateJobStatus; split
  · exact List.prefix_append _ _
  · exact List.prefix_refl _

theorem intInc_of_ne {x : Int} (h : x ≠ maxInt) : intInc x = x + 1 := by
  simp [intInc, h]

theorem intInc_of_lt {x y : Int} (h : x < y) (hy : y ≤ maxInt) : intInc x = x + 1 := by
  apply intInc_of_ne
  omega

theorem intInc_maxInt : intInc maxInt = minInt := by
  simp [intInc]

theorem intInc_le {x y : Int} (h : x + 1 ≤ y) : intInc x ≤ y := by
  by_cases hx : x = maxInt
  · subst hx
    rw [intInc_maxInt]
    simp only [maxInt, minInt] at h ⊢
    omega
  · rw [intInc_of_ne hx]; exact h

/-- On the range of a Go `int`, `intInc` is the successor modulo `2^64`. -/
theorem intInc_eq_mod (x : Int) (hlo : minInt ≤ x) (hhi : x ≤ maxInt) :
    intInc x = (x + 1 + 2 ^ 63) % 2 ^ 64 - 2 ^ 63 := by
  simp only [minInt, maxInt] at hlo hhi
  by_cases hx : x = maxInt
  · subst hx; simp [intInc, maxInt, minInt]
  · rw [intInc_of_ne hx]
    simp only [maxInt] at hx
    omega

theorem trySend_closed {c : Chan} (p : Ptr) (h : c.closed = true) : c.trySend p = none := by
  simp [Chan.trySend, h]

theorem trySend_hand {c : Chan} (p : Ptr) (h : c.closed = false) (hw : 0 < c.waiting)
    (hb : c.buf = []) :
    c.trySend p = some ({ c with waiting := c.waiting - 1 }, true) := by
  simp [Chan.trySend, h, hw, hb]

theorem trySend_room {c : Chan} (p : Ptr) (h : c.closed = false)
    (hno : ¬ (0 < c.waiting ∧ c.buf = [])) (hr : c.buf.length < c.cap) :
    c.trySend p = some ({ c with buf := c.buf ++ [p] }, true) := by
  simp only [Chan.trySend, h, hno, hr, if_true, if_false]
  simp

theorem trySend_full {c : Chan} (p : Ptr) (h : c.closed = false)
    (hno : ¬ (0 < c.waiting ∧ c.buf = [])) (hr : c.cap ≤ c.buf.length) :
    c.trySend p = some (c, false) := by
  simp only [Chan.trySend, h, hno, Nat.not_lt.mpr hr, if_false]
  simp

theorem no_hand_of_idle {c : Chan} (h : c.waiting = 0) : ¬ (0 < c.waiting ∧ c.buf = []) := by
  simp [h]

theorem no_hand_of_full {c : Chan} (hc : 1 ≤ c.cap) (hr : c.cap ≤ c.buf.length) :
    ¬ (0 < c.waiting ∧ c.buf = []) := by
  rintro ⟨-, hb⟩
  rw [hb] at hr
  simp only [List.length_nil] at hr
  omega

theorem RetryJob_none {id : String} (h : q.jobs.lookup id = none) :
    RetryJob q clk id = (q, Outcome.ret false) := by
  simp [RetryJob, h]

theorem RetryJob_exhausted {id : String} {p : Ptr} (h : q.jobs.lookup id = some p)
    (hx : (q.mem p).MaxRetries < intInc (q.mem p).RetryCount) :
    RetryJob q clk id =
      (UpdateJobStatus
        (addLog { q with mem := Function.update q.mem p (q.mem p).bumped } clk
          ("[RETRY] Job " ++ id ++ " gagal setelah " ++ toString (q.mem p).MaxRetries
            ++ " kali retry"))
        (clk.drop 1) id StatusFailed maxRetriesMsg, Outcome.ret false) := by
  simp [RetryJob, h, hx, Job.bumped]

theorem RetryJob_within {id : String} {p : Ptr} (h : q.jobs.lookup id = some p)
    (hx : intInc (q.mem p).RetryCount ≤ (q.mem p).MaxRetries) :
    RetryJob q clk id =
      match q.jobChan.trySend p with
      | none =>
        ({ q with mem := Function.update q.mem p ((q.mem p).retried (clk 1)),
                  logs := q.logs ++ ["[" ++ (clk 0).stamp ++ "] " ++ ("[RETRY] Job " ++ id
                    ++ " retry ke-" ++ toString (intInc (q.mem p).RetryCount))] },
          Outcome.panic sendOnClosed)
      | some (c, sent) =>
        ({ q with mem := Function.update q.mem p ((q.mem p).retried (clk 1)),
                  jobChan := c,
                  logs := q.logs ++ ["[" ++ (clk 0).stamp ++ "] " ++ ("[RETRY] Job " ++ id
                    ++ " retry ke-" ++ toString (intInc (q.mem p).RetryCount))] },
          Outcome.ret sent) := by
  have hx' : ¬ (q.mem p).MaxRetries < intInc (q.mem p).RetryCount := not_lt.mpr hx
  simp only [RetryJob, h, gt_iff_lt, hx', if_false, addLog, Job.retried]
  cases hs : q.jobChan.trySend p with
  | none => simp
  | some r => obtain ⟨c, sent⟩ := r; simp

@[simp] theorem RetryJob_jobs (id : String) : (RetryJob q clk id).1.jobs = q.jobs := by
  cases h : q.jobs.lookup id with
  | none => rw [RetryJob_none q clk h]
  | some p =>
    by_cases hx : intInc (q.mem p).RetryCount ≤ (q.mem p).MaxRetries
    · rw [RetryJob_within q clk h hx]; split <;> rfl
    · rw [RetryJob_exhausted q clk h (not_le.mp hx)]; simp

@[simp] theorem RetryJob_next (id : String) : (RetryJob q clk id).1.next = q.next := by
  cases h : q.jobs.lookup id with
  | none => rw [RetryJob_none q clk h]
  | some p =>
    by_cases hx : intInc (q.mem p).RetryCount ≤ (q.mem p).MaxRetries
    · rw [RetryJob_within q clk h hx]; split <;> rfl
    · rw [RetryJob_exhausted q clk h (not_le.mp hx)]; simp

theorem RetryJob_logs_grow (id : String) : q.logs <+: (RetryJob q clk id).1.logs := by
  cases h : q.jobs.lookup id with
  | none => rw [RetryJob_none q clk h]
  | some p =>
    by_cases hx : intInc (q.mem p).RetryCount ≤ (q.mem p).MaxRetries
    · rw [RetryJob_within q clk h hx]; split <;> exact List.prefix_append _ _
    · rw [RetryJob_exhausted q clk h (not_le.mp hx)]
      refine List.IsPrefix.trans ?_ (UpdateJobStatus_logs_grow _ _ _ _ _)
      exact List.prefix_append _ _

theorem AddJob_logs (job : Ptr) :
    (AddJob q clk job).1.logs =
      q.logs ++ ["[" ++ (clk 0).stamp ++ "] " ++ enqueueMsg (q.mem job)] := by
  unfold AddJob
  simp only []
  split <;> rfl

@[simp] theorem AddJob_jobs (job : Ptr) :
    (AddJob q clk job).1.jobs = q.jobs.insert (q.mem job).ID job := by
  unfold AddJob
  simp only []
  split <;> rfl

@[simp] theorem AddJob_mem (job : Ptr) : (AddJob q clk job).1.mem = q.mem := by
  unfold AddJob
  simp only []
  split <;> rfl

@[simp] theorem AddJob_next (job : Ptr) : (AddJob q clk job).1.next = q.next := by
  unfold AddJob
  simp only []
  split <;> rfl

theorem AddJob_sent (job : Ptr) {c : Chan} (hs : q.jobChan.trySend job = some (c, true)) :
    (AddJob q clk job).2 = Outcome.ret none ∧ (AddJob q clk job).1.jobChan = c := by
  have hs' : (addLog { q with jobs := q.jobs.insert (q.mem job).ID job } clk
      (enqueueMsg (q.mem job))).jobChan.trySend job = some (c, true) := hs
  unfold AddJob
  simp only []
  rw [hs']
  exact ⟨rfl, rfl⟩

theorem AddJob_refused (job : Ptr) {c : Chan} (hs : q.jobChan.trySend job = some (c, false)) :
    (AddJob q clk job).2 = Outcome.ret (some queueFullError) ∧
    (AddJob q clk job).1.jobChan = q.jobChan := by
  have hs' : (addLog { q with jobs := q.jobs.insert (q.mem job).ID job } clk
      (enqueueMsg (q.mem job))).jobChan.trySend job = some (c, false) := hs
  unfold AddJob
  simp only []
  rw [hs']
  exact ⟨rfl, rfl⟩

theorem AddJob_room (job : Ptr) (h : q.jobChan.closed = false)
    (hno : ¬ (0 < q.jobChan.waiting ∧ q.jobChan.buf = []))
    (hr : q.jobChan.buf.length < q.jobChan.cap) :
    (AddJob q clk job).2 = Outcome.ret none ∧
    (AddJob q clk job).1.jobChan = { q.jobChan with buf := q.jobChan.buf ++ [job] } :=
  AddJob_sent q clk job (trySend_room job h hno hr)

theorem AddJob_full (job : Ptr) (h : q.jobChan.closed = false)
    (hno : ¬ (0 < q.jobChan.waiting ∧ q.jobChan.buf = []))
    (hr : q.jobChan.cap ≤ q.jobChan.buf.length) :
    (AddJob q clk job).2 = Outcome.ret (some queueFullError) ∧
    (AddJob q clk job).1.jobChan = q.jobChan :=
  AddJob_refused q clk job (trySend_full job h hno hr)

theorem RetryJob_within_send {id : String} {p : Ptr} (hp : q.jobs.lookup id = some p)
    (hx : intInc (q.mem p).RetryCount ≤ (q.mem p).MaxRetries) {c : Chan} {b : Bool}
    (hs : q.jobChan.trySend p = some (c, b)) :
    (RetryJob q clk id).2 = Outcome.ret b ∧
    (RetryJob q clk id).1.jobChan = c ∧
    (RetryJob q clk id).1.mem = Function.update q.mem p ((q.mem p).retried (clk 1)) := by
  rw [RetryJob_within q clk hp hx, hs]
  exact ⟨rfl, rfl, rfl⟩

theorem RetryJob_within_room {id : String} {p : Ptr} (hp : q.jobs.lookup id = some p)
    (hx : intInc (q.mem p).RetryCount ≤ (q.mem p).MaxRetries) (h : q.jobChan.closed = false)
    (hno : ¬ (0 < q.jobChan.waiting ∧ q.jobChan.buf = []))
    (hr : q.jobChan.buf.length < q.jobChan.cap) :
    (RetryJob q clk id).2 = Outcome.ret true ∧
    (RetryJob q clk id).1.jobChan = { q.jobChan with buf := q.jobChan.buf ++ [p] } ∧
    (RetryJob q clk id).1.mem = Function.update q.mem p ((q.mem p).retried (clk 1)) :=
  RetryJob_within_send q clk hp hx (trySend_room p h hno hr)

theorem RetryJob_within_full {id : String} {p : Ptr} (hp : q.jobs.lookup id = some p)
    (hx : intInc (q.mem p).RetryCount ≤ (q.mem p).MaxRetries) (h : q.jobChan.closed = false)
    (hno : ¬ (0 < q.jobChan.waiting ∧ q.jobChan.buf = []))
    (hr : q.jobChan.cap ≤ q.jobChan.buf.length) :
    (RetryJob q clk id).2 = Outcome.ret false ∧
    (RetryJob q clk id).1.jobChan = q.jobChan ∧
    (RetryJob q clk id).1.mem = Function.update q.mem p ((q.mem p).retried (clk 1)) :=
  RetryJob_within_send q clk hp hx (trySend_full p h hno hr)

theorem RetryJob_exhausted_spec {id : String} {p : Ptr} (hp : q.jobs.lookup id = some p)
    (hx : (q.mem p).MaxRetries < intInc (q.mem p).RetryCount) :
    (RetryJob q clk id).2 = Outcome.ret false ∧
    (RetryJob q clk id).1.jobChan = q.jobChan ∧
    (RetryJob q clk id).1.mem =
      Function.update q.mem p ((q.mem p).bumped.updated StatusFailed (clk 1) maxRetriesMsg) := by
  rw [RetryJob_exhausted q clk hp hx]
  refine ⟨rfl, by simp, ?_⟩
  have hp' : (addLog { q with mem := Function.update q.mem p (q.mem p).bumped } clk
      ("[RETRY] Job " ++ id ++ " gagal setelah " ++ toString (q.mem p).MaxRetries
        ++ " kali retry")).jobs.lookup id = some p := hp
  simp only []
  rw [UpdateJobStatus_some _ _ _ _ hp']
  simp [Clock.drop]

theorem Close_logs_grow : q.logs <+: (Close q clk).1.logs := by
  unfold Close; split
  · exact List.prefix_refl _
  · exact List.prefix_append _ _

theorem foldl_addLog_logs (entries : List (Clock × String)) :
    (entries.foldl (fun s e => addLog s e.1 e.2) q).logs
      = q.logs ++ entries.map (fun e => "[" ++ (e.1 0).stamp ++ "] " ++ e.2) := by
  induction entries generalizing q with
  | nil => simp
  | cons e rest ih => simp [ih, addLog_logs]

end basic

/-! ## C8: frame of `UpdateJobStatus` -/

/-- C8: `UpdateJobStatus(id, s, e)` changes nothing at all when `id` is absent
from the store.  When `id` is stored (at `p`) it sets the status to `s`, sets
the error message to `e` if `e` is non-empty and keeps the stored message if
`e` is empty, leaves `ID`, `Type`, `Payload`, `RetryCount`, `MaxRetries` and
`CreatedAt` of that record as they were, and changes no other record, nor the
store, nor the dispatch channel. -/
theorem C8_UpdateJobStatus_frame (q : JobQueue) (clk : Clock) (id : String) (s : JobStatus)
    (e : String) :
    (q.jobs.lookup id = none → UpdateJobStatus q clk id s e = q) ∧
    (∀ p, q.jobs.lookup id = some p →
      ((UpdateJobStatus q clk id s e).mem p).Status = s ∧
      (e ≠ "" → ((UpdateJobStatus q clk id s e).mem p).ErrorMsg = e) ∧
      (e = "" → ((UpdateJobStatus q clk id s e).mem p).ErrorMsg = (q.mem p).ErrorMsg) ∧
      ((UpdateJobStatus q clk id s e).mem p).ID = (q.mem p).ID ∧
      ((UpdateJobStatus q clk id s e).mem p).Type_ = (q.mem p).Type_ ∧
      ((UpdateJobStatus q clk id s e).mem p).Payload = (q.mem p).Payload ∧
      ((UpdateJobStatus q clk id s e).mem p).RetryCount = (q.mem p).RetryCount ∧
      ((UpdateJobStatus q clk id s e).mem p).MaxRetries = (q.mem p).MaxRetries ∧
      ((UpdateJobStatus q clk id s e).mem p).CreatedAt = (q.mem p).CreatedAt ∧
      (∀ p', p' ≠ p → (UpdateJobStatus q clk id s e).mem p' = q.mem p') ∧
      (UpdateJobStatus q clk id s e).jobs = q.jobs ∧
      (UpdateJobStatus q clk id s e).jobChan = q.jobChan) := by
  refine ⟨UpdateJobStatus_none q clk s e, ?_⟩
  intro p hp
  rw [UpdateJobStatus_mem_same q clk s e hp]
  refine ⟨rfl, ?_, ?_, rfl, rfl, rfl, rfl, rfl, rfl, ?_, ?_, ?_⟩
  · intro he; simp [Job.updated, he]
  · intro he; simp [Job.updated, he]
  · intro p' hne; exact UpdateJobStatus_mem_other q clk s e hp hne
  · simp
  · simp

/-- C8 at a concrete state: a stored job that carries an error message is set
to `DONE` with an empty message; the message stays. -/
theorem C8_UpdateJobStatus_frame_witness :
    (UpdateJobStatus demoFull demoClock demoID StatusFailed "boom").jobs.lookup demoID = some 0 ∧
    ((UpdateJobStatus (UpdateJobStatus demoFull demoClock demoID StatusFailed "boom")
        demoClock demoID StatusDone "").mem 0).Status = StatusDone ∧
    ((UpdateJobStatus (UpdateJobStatus demoFull demoClock demoID StatusFailed "boom")
        demoClock demoID StatusDone "").mem 0).ErrorMsg = "boom" :=
  have h : (UpdateJobStatus demoFull demoClock demoID StatusFailed "boom").jobs.lookup demoID
      = some 0 := by decide
  have c := (C8_UpdateJobStatus_frame (UpdateJobStatus demoFull demoClock demoID StatusFailed
      "boom") demoClock demoID StatusDone "").2 0 h
  ⟨h, c.1, (c.2.2.1 rfl).trans (by decide)⟩

/-! ## C10: the event log -/

theorem RetryJob_within_logs (q : JobQueue) (clk : Clock) {id : String} {p : Ptr}
    (h : q.jobs.lookup id = some p)
    (hx : intInc (q.mem p).RetryCount ≤ (q.mem p).MaxRetries) :
    (RetryJob q clk id).1.logs =
      q.logs ++ ["[" ++ (clk 0).stamp ++ "] " ++ ("[RETRY] Job " ++ id ++ " retry ke-"
        ++ toString (intInc (q.mem p).RetryCount))] := by
  rw [RetryJob_within q clk h hx]
  split <;> rfl

theorem RetryJob_exhausted_logs (q : JobQueue) (clk : Clock) {id : String} {p : Ptr}
    (h : q.jobs.lookup id = some p)
    (hx : (q.mem p).MaxRetries < intInc (q.mem p).RetryCount) :
    (RetryJob q clk id).1.logs =
      q.logs ++
        ["[" ++ (clk 0).stamp ++ "] " ++ ("[RETRY] Job " ++ id ++ " gagal setelah "
            ++ toString (q.mem p).MaxRetries ++ " kali retry"),
          "[" ++ (clk 2).stamp ++ "] " ++ ("[UPDATE] Job " ++ id ++ " status: " ++ "FAILED"
            ++ (" (error: " ++ "Max retries exceeded" ++ ")"))] := by
  rw [RetryJob_exhausted q clk h hx]
  have hp' : (addLog { q with mem := Function.update q.mem p (q.mem p).bumped } clk
      ("[RETRY] Job " ++ id ++ " gagal setelah " ++ toString (q.mem p).MaxRetries
        ++ " kali retry")).jobs.lookup id = some p := h
  simp only []
  rw [UpdateJobStatus_some _ _ _ _ hp', addLog_logs]
  simp [addLog, updateMsg, maxRetriesMsg, StatusFailed, Clock.drop]

/-- C10: the event log only grows at its end.  For `AddJob`,
`UpdateJobStatus`, `RetryJob` and `Close` the log before the call is a prefix
of the log after it (also when the call panics); `GetJob`, `GetAllJobs` and
`GetLogs` are functions of the state and have no successor state.  `AddJob`
appends exactly one line, `[<timestamp>] [ENQUEUE] Job <id> (<type>)
ditambahkan ke queue`, whatever the channel does with the job.
`UpdateJobStatus` appends exactly its `[UPDATE]` line when the job is stored
and nothing otherwise; `RetryJob` appends nothing for an absent job, its
`[RETRY] ... retry ke-<n>` line within the budget, and its `[RETRY] ... gagal`
line followed by the `[UPDATE]` line of the `FAILED` status beyond it; `Close`
appends `[SYSTEM] Queue ditutup` unless the channel is closed already.
`GetLogs` returns the log, which after any sequence of `addLog` calls is the
earlier log followed by the lines `[<timestamp>] <message>` in the order of
the calls. -/
theorem C10_log_append_only (q : JobQueue) (clk : Clock) :
    (∀ job, q.logs <+: (AddJob q clk job).1.logs) ∧
    (∀ id s e, q.logs <+: (UpdateJobStatus q clk id s e).logs) ∧
    (∀ id, q.logs <+: (RetryJob q clk id).1.logs) ∧
    q.logs <+: (Close q clk).1.logs ∧
    (∀ job, (AddJob q clk job).1.logs =
      q.logs ++ ["[" ++ (clk 0).stamp ++ "] " ++ ("[ENQUEUE] Job " ++ (q.mem job).ID ++ " (" ++
        (q.mem job).Type_ ++ ") ditambahkan ke queue")]) ∧
    (∀ id s e p, q.jobs.lookup id = some p → (UpdateJobStatus q clk id s e).logs =
      q.logs ++ ["[" ++ (clk 1).stamp ++ "] " ++
        (if e = "" then "[UPDATE] Job " ++ id ++ " status: " ++ s
         else "[UPDATE] Job " ++ id ++ " status: " ++ s ++ (" (error: " ++ e ++ ")"))]) ∧
    (∀ id s e, q.jobs.lookup id = none → (UpdateJobStatus q clk id s e).logs = q.logs) ∧
    (∀ id, q.jobs.lookup id = none → (RetryJob q clk id).1.logs = q.logs) ∧
    (∀ id p, q.jobs.lookup id = some p →
      intInc (q.mem p).RetryCount ≤ (q.mem p).MaxRetries →
      (RetryJob q clk id).1.logs =
        q.logs ++ ["[" ++ (clk 0).stamp ++ "] " ++ ("[RETRY] Job " ++ id ++ " retry ke-"
          ++ toString (intInc (q.mem p).RetryCount))]) ∧
    (∀ id p, q.jobs.lookup id = some p →
      (q.mem p).MaxRetries < intInc (q.mem p).RetryCount →
      (RetryJob q clk id).1.logs =
        q.logs ++
          ["[" ++ (clk 0).stamp ++ "] " ++ ("[RETRY] Job " ++ id ++ " gagal setelah "
              ++ toString (q.mem p).MaxRetries ++ " kali retry"),
            "[" ++ (clk 2).stamp ++ "] " ++ ("[UPDATE] Job " ++ id ++ " status: " ++ "FAILED"
              ++ (" (error: " ++ "Max retries exceeded" ++ ")"))]) ∧
    (q.jobChan.closed = false →
      (Close q clk).1.logs = q.logs ++ ["[" ++ (clk 0).stamp ++ "] " ++ "[SYSTEM] Queue ditutup"]) ∧
    (q.jobChan.closed = true → (Close q clk).1.logs = q.logs) ∧
    GetLogs q = q.logs ∧
    (∀ entries : List (Clock × String),
      GetLogs (entries.foldl (fun s e => addLog s e.1 e.2) q) =
        GetLogs q ++ entries.map (fun e => "[" ++ (e.1 0).stamp ++ "] " ++ e.2)) := by
  refine ⟨?_, UpdateJobStatus_logs_grow q clk, RetryJob_logs_grow q clk,
    Close_logs_grow q clk, ?_, ?_, ?_, ?_, ?_, ?_, ?_, ?_, rfl, ?_⟩
  · intro job; rw [AddJob_logs]; exact List.prefix_append _ _
  · intro job; rw [AddJob_logs]; rfl
  · intro id s e p hp
    rw [UpdateJobStatus_some q clk s e hp, addLog_logs]
    by_cases he : e = "" <;> simp [updateMsg, Clock.drop, he]
  · intro id s e hp
    rw [UpdateJobStatus_none q clk s e hp]
  · intro id hp
    rw [RetryJob_none q clk hp]
  · intro id p hp hx
    exact RetryJob_within_logs q clk hp hx
  · intro id p hp hx
    exact RetryJob_exhausted_logs q clk hp hx
  · intro h
    simp [Close, h, addLog]
  · intro h
    simp [Close, h]
  · intro entries; exact foldl_addLog_logs q entries

/-! ## C6: deletion -/

/-- C6: `DeleteJob(id)` returns `true` exactly when `id` is stored.  When `id`
is absent it returns `false` and the state is unchanged.  When `id` is stored,
`GetJob(id)` afterwards finds nothing.  In both cases the lookup of every
other identifier and every `Job` object are as before. -/
theorem C6_DeleteJob (q : JobQueue) (id : String) :
    ((DeleteJob q id).2 = true ↔ id ∈ q.jobs) ∧
    (id ∉ q.jobs → (DeleteJob q id).2 = false ∧ (DeleteJob q id).1 = q) ∧
    (id ∈ q.jobs → GetJob (DeleteJob q id).1 id = none) ∧
    (∀ id', id' ≠ id → GetJob (DeleteJob q id).1 id' = GetJob q id') ∧
    (DeleteJob q id).1.mem = q.mem := by
  cases h : q.jobs.lookup id with
  | none =>
    have hn : id ∉ q.jobs := AList.lookup_eq_none.mp h
    simp [DeleteJob, h, hn]
  | some p =>
    have hm : id ∈ q.jobs := AList.lookup_isSome.mp (by simp [h])
    have hd : DeleteJob q id = ({ q with jobs := q.jobs.erase id }, true) := by
      simp [DeleteJob, h]
    rw [hd]
    refine ⟨by simp [hm], fun hn => absurd hm hn, fun _ => AList.lookup_erase _ _, ?_, rfl⟩
    intro id' hne
    exact AList.lookup_erase_ne hne

/-- C6 at a concrete store: deleting the stored identifier returns `true` and
the identifier is then not found; deleting an absent one returns `false`. -/
theorem C6_DeleteJob_witness :
    demoID ∈ demoFull.jobs ∧ (DeleteJob demoFull demoID).2 = true ∧
    GetJob (DeleteJob demoFull demoID).1 demoID = none ∧
    "nope" ∉ demoFull.jobs ∧ (DeleteJob demoFull "nope").2 = false :=
  have h : demoID ∈ demoFull.jobs := by decide
  have h' : "nope" ∉ demoFull.jobs := by decide
  ⟨h, (C6_DeleteJob demoFull demoID).1.mpr h, (C6_DeleteJob demoFull demoID).2.2.1 h, h',
    ((C6_DeleteJob demoFull "nope").2.1 h').1⟩

/-! ## C9: the dispatch channel is a bounded FIFO -/

theorem alloc_jobChan (q : JobQueue) (j : Job) : (q.alloc j).1.jobChan = q.jobChan := rfl

theorem QueueOp.step_ok (t : Trace) (op : QueueOp) (h : t.Ok) :
    (op.step t).Ok ∧ (op.step t).q.jobChan.cap = t.q.jobChan.cap := by
  obtain ⟨⟨hopen, hidle⟩, hlen, hfifo⟩ := h
  have hno : ¬ (0 < t.q.jobChan.waiting ∧ t.q.jobChan.buf = []) := no_hand_of_idle hidle
  cases op with
  | add clk j =>
    simp only [QueueOp.step]
    by_cases hr : t.q.jobChan.buf.length < t.q.jobChan.cap
    · obtain ⟨h2, hc⟩ := AddJob_room (t.q.alloc j).1 clk (t.q.alloc j).2 hopen hno hr
      generalize AddJob (t.q.alloc j).1 clk (t.q.alloc j).2 = r at h2 hc
      obtain ⟨q1, o⟩ := r
      simp only at h2 hc
      subst h2
      simp only [Trace.Ok, hc, alloc_jobChan, hopen, hidle, List.length_append, List.length_singleton,
        hfifo, List.append_assoc, and_true, true_and]
      omega
    · obtain ⟨h2, hc⟩ := AddJob_full (t.q.alloc j).1 clk (t.q.alloc j).2 hopen hno (not_lt.mp hr)
      generalize AddJob (t.q.alloc j).1 clk (t.q.alloc j).2 = r at h2 hc
      obtain ⟨q1, o⟩ := r
      simp only at h2 hc
      subst h2
      simp only [Trace.Ok, hc, alloc_jobChan, hopen, hidle, hfifo, and_true, true_and]
      exact hlen
  | retry clk id =>
    simp only [QueueOp.step]
    cases hp : t.q.jobs.lookup id with
    | none =>
      rw [RetryJob_none t.q clk hp]
      exact ⟨⟨⟨hopen, hidle⟩, hlen, hfifo⟩, rfl⟩
    | some p =>
      by_cases hx : intInc (t.q.mem p).RetryCount ≤ (t.q.mem p).MaxRetries
      · by_cases hr : t.q.jobChan.buf.length < t.q.jobChan.cap
        · obtain ⟨h2, hc, -⟩ := RetryJob_within_room t.q clk hp hx hopen hno hr
          generalize RetryJob t.q clk id = r at h2 hc
          obtain ⟨q1, o⟩ := r
          simp only at h2 hc
          subst h2
          simp only [Trace.Ok, hc, hopen, hidle, List.length_append, List.length_singleton,
            hfifo, List.append_assoc, and_true, true_and]
          omega
        · obtain ⟨h2, hc, -⟩ := RetryJob_within_full t.q clk hp hx hopen hno (not_lt.mp hr)
          generalize RetryJob t.q clk id = r at h2 hc
          obtain ⟨q1, o⟩ := r
          simp only at h2 hc
          subst h2
          simp only [Trace.Ok, hc, hopen, hidle, hfifo, and_true, true_and]
          exact hlen
      · obtain ⟨h2, hc, -⟩ := RetryJob_exhausted_spec t.q clk hp (not_le.mp hx)
        generalize RetryJob t.q clk id = r at h2 hc
        obtain ⟨q1, o⟩ := r
        simp only at h2 hc
        subst h2
        simp only [Trace.Ok, hc, hopen, hidle, hfifo, and_true, true_and]
        exact hlen
  | dequeue =>
    simp only [QueueOp.step, Chan.recv]
    cases hb : t.q.jobChan.buf with
    | nil => exact ⟨⟨⟨hopen, hidle⟩, hlen, hfifo⟩, rfl⟩
    | cons p rest =>
      rw [hb] at hlen hfifo
      simp only [Trace.Ok, hopen, hidle, hfifo, List.append_assoc, List.singleton_append, and_true,
        true_and]
      simp only [List.length_cons] at hlen
      omega

theorem runOps_ok (t : Trace) (ops : List QueueOp) (h : t.Ok) :
    (runOps t ops).Ok ∧ (runOps t ops).q.jobChan.cap = t.q.jobChan.cap := by
  induction ops generalizing t with
  | nil => exact ⟨h, rfl⟩
  | cons op rest ih =>
    obtain ⟨h1, hc1⟩ := QueueOp.step_ok t op h
    obtain ⟨h2, hc2⟩ := ih (op.step t) h1
    exact ⟨h2, hc2.trans hc1⟩

/-- C9: let `t` be the state reached from `NewJobQueue(c)`, `c >= 1`, by any
sequence of job creations with `AddJob`, calls of `RetryJob`, and receives.
(1) The channel has capacity `c` and holds at most `c` jobs.
(2) `AddJob` in that state returns `nil` exactly when the channel holds fewer
than `c` jobs, and then the job is appended at the tail; otherwise it returns
the "queue full" error and the channel is unchanged.
(3) `RetryJob` on a stored job within its retry budget returns `true` exactly
when the channel holds fewer than `c` jobs, and then the job is appended at
the tail; otherwise it returns `false` and the channel is unchanged.
(4) A receive delivers the head of the buffer.
(5) The jobs accepted so far, in order of acceptance, are the jobs delivered
so far, in order of delivery, followed by the buffer: delivery is first-in
first-out over new submissions and retries alike. -/
theorem C9_bounded_fifo (c : Nat) (_hc : 1 ≤ c) (ops : List QueueOp) :
    ((runOps (Trace.start c) ops).q.jobChan.cap = c ∧
      (runOps (Trace.start c) ops).q.jobChan.buf.length ≤ c) ∧
    (∀ (clk : Clock) (job : Ptr),
      ((AddJob (runOps (Trace.start c) ops).q clk job).2 = Outcome.ret none ↔
        (runOps (Trace.start c) ops).q.jobChan.buf.length < c) ∧
      ((runOps (Trace.start c) ops).q.jobChan.buf.length < c →
        (AddJob (runOps (Trace.start c) ops).q clk job).1.jobChan.buf =
          (runOps (Trace.start c) ops).q.jobChan.buf ++ [job]) ∧
      (¬ (runOps (Trace.start c) ops).q.jobChan.buf.length < c →
        (AddJob (runOps (Trace.start c) ops).q clk job).2 = Outcome.ret (some queueFullError) ∧
        (AddJob (runOps (Trace.start c) ops).q clk job).1.jobChan.buf =
          (runOps (Trace.start c) ops).q.jobChan.buf)) ∧
    (∀ (clk : Clock) (id : String) (p : Ptr),
      (runOps (Trace.start c) ops).q.jobs.lookup id = some p →
      ((runOps (Trace.start c) ops).q.mem p).RetryCount + 1 ≤
        ((runOps (Trace.start c) ops).q.mem p).MaxRetries →
      (((RetryJob (runOps (Trace.start c) ops).q clk id).2 = Outcome.ret true ↔
        (runOps (Trace.start c) ops).q.jobChan.buf.length < c) ∧
      ((runOps (Trace.start c) ops).q.jobChan.buf.length < c →
        (RetryJob (runOps (Trace.start c) ops).q clk id).1.jobChan.buf =
          (runOps (Trace.start c) ops).q.jobChan.buf ++ [p]) ∧
      (¬ (runOps (Trace.start c) ops).q.jobChan.buf.length < c →
        (RetryJob (runOps (Trace.start c) ops).q clk id).2 = Outcome.ret false ∧
        (RetryJob (runOps (Trace.start c) ops).q clk id).1.jobChan.buf =
          (runOps (Trace.start c) ops).q.jobChan.buf))) ∧
    (∀ (p : Ptr) (rest : List Ptr), (runOps (Trace.start c) ops).q.jobChan.buf = p :: rest →
      (runOps (Trace.start c) ops).q.jobChan.recv =
        some (p, { buf := rest, cap := c, closed := false, waiting := 0 })) ∧
    (runOps (Trace.start c) ops).accepted =
      (runOps (Trace.start c) ops).delivered ++ (runOps (Trace.start c) ops).q.jobChan.buf := by
  have h0 : (Trace.start c).Ok := ⟨⟨rfl, rfl⟩, Nat.zero_le _, rfl⟩
  obtain ⟨⟨⟨hopen, hidle⟩, hlen, hfifo⟩, hcap⟩ := runOps_ok (Trace.start c) ops h0
  have hcap' : (runOps (Trace.start c) ops).q.jobChan.cap = c := hcap
  generalize runOps (Trace.start c) ops = t at hopen hidle hlen hfifo hcap'
  subst hcap'
  have hno : ¬ (0 < t.q.jobChan.waiting ∧ t.q.jobChan.buf = []) := no_hand_of_idle hidle
  refine ⟨⟨rfl, hlen⟩, ?_, ?_, ?_, hfifo⟩
  · intro clk job
    by_cases hr : t.q.jobChan.buf.length < t.q.jobChan.cap
    · obtain ⟨h2, hc⟩ := AddJob_room t.q clk job hopen hno hr
      exact ⟨⟨fun _ => hr, fun _ => h2⟩, fun _ => by rw [hc], fun hn => absurd hr hn⟩
    · obtain ⟨h2, hc⟩ := AddJob_full t.q clk job hopen hno (not_lt.mp hr)
      refine ⟨⟨fun h => ?_, fun h => absurd h hr⟩, fun h => absurd h hr,
        fun _ => ⟨h2, by rw [hc]⟩⟩
      rw [h2] at h
      exact absurd h (by simp)
  · intro clk id p hp hx
    by_cases hr : t.q.jobChan.buf.length < t.q.jobChan.cap
    · obtain ⟨h2, hc, -⟩ := RetryJob_within_room t.q clk hp (intInc_le hx) hopen hno hr
      exact ⟨⟨fun _ => hr, fun _ => h2⟩, fun _ => by rw [hc], fun hn => absurd hr hn⟩
    · obtain ⟨h2, hc, -⟩ := RetryJob_within_full t.q clk hp (intInc_le hx) hopen hno (not_lt.mp hr)
      refine ⟨⟨fun h => ?_, fun h => absurd h hr⟩, fun h => absurd h hr,
        fun _ => ⟨h2, by rw [hc]⟩⟩
      rw [h2] at h
      exact absurd h (by simp)
  · intro p rest hb
    simp only [Chan.recv, hb]
    congr 2
    rw [← hopen, ← hidle]

/-- C9 on the history `demoOps` with capacity 2: jobs 0 and 1 are accepted,
job 2 is rejected, the retry of job 0 is accepted behind job 1; deliveries are
0 then 1, and the retried job 0 is what the channel still holds. -/
theorem C9_bounded_fifo_witness :
    1 ≤ 2 ∧
    (runOps (Trace.start 2) demoOps).accepted = [0, 1, 0] ∧
    (runOps (Trace.start 2) demoOps).delivered = [0, 1] ∧
    (runOps (Trace.start 2) demoOps).q.jobChan.buf = [0] ∧
    ((runOps (Trace.start 2) demoOps).q.jobChan.cap = 2 ∧
      (runOps (Trace.start 2) demoOps).q.jobChan.buf.length ≤ 2) ∧
    (runOps (Trace.start 2) demoOps).accepted =
      (runOps (Trace.start 2) demoOps).delivered ++ (runOps (Trace.start 2) demoOps).q.jobChan.buf :=
  have c := C9_bounded_fifo 2 (by decide) demoOps
  ⟨by decide, by decide, by decide, by decide, c.1, c.2.2.2.2⟩

/-! ## C2: a job whose execution always fails -/

theorem workerStep_cons (q : JobQueue) (clk : Clock) (ok : Bool) {p : Ptr} {rest : List Ptr}
    (hb : q.jobChan.buf = p :: rest) :
    workerStep q clk ok = some (processJob q.afterRecv clk p ok) ∧
    q.afterRecv = { q with jobChan := { q.jobChan with buf := rest } } := by
  simp [workerStep, JobQueue.afterRecv, Chan.recv, hb]

theorem workerStep_nil (q : JobQueue) (clk : Clock) (ok : Bool) (hb : q.jobChan.buf = []) :
    workerStep q clk ok = none := by
  simp [workerStep, Chan.recv, hb]

theorem processJob_ok (q : JobQueue) (clk : Clock) (p : Ptr) :
    processJob q clk p true =
      (UpdateJobStatus (inFlight q clk p) (clk.drop 2) (q.mem p).ID StatusDone "",
        Outcome.ret ()) := by
  simp [processJob]

theorem inFlight_mem_same (q : JobQueue) (clk : Clock) {p : Ptr}
    (hl : q.jobs.lookup (q.mem p).ID = some p) :
    (inFlight q clk p).mem p = (q.mem p).updated StatusProcessing (clk 0) "" :=
  UpdateJobStatus_mem_same q clk _ _ hl

theorem inFlight_mem_other (q : JobQueue) (clk : Clock) {p p' : Ptr}
    (hl : q.jobs.lookup (q.mem p).ID = some p) (hne : p' ≠ p) :
    (inFlight q clk p).mem p' = q.mem p' :=
  UpdateJobStatus_mem_other q clk _ _ hl hne

@[simp] theorem inFlight_jobs (q : JobQueue) (clk : Clock) (p : Ptr) :
    (inFlight q clk p).jobs = q.jobs := by simp [inFlight]

@[simp] theorem inFlight_jobChan (q : JobQueue) (clk : Clock) (p : Ptr) :
    (inFlight q clk p).jobChan = q.jobChan := by simp [inFlight]

@[simp] theorem inFlight_next (q : JobQueue) (clk : Clock) (p : Ptr) :
    (inFlight q clk p).next = q.next := by simp [inFlight]

theorem run_append (q : JobQueue) (a b : List Event) : run q (a ++ b) = run (run q a) b := by
  simp [run, List.foldl_append]

theorem submit_inv (c : Nat) (specs : List JobSpec) (hlen : specs.length ≤ c)
    (hnd : (specs.map (fun s => s.job.ID)).Nodup) :
    (run (NewJobQueue c) (specs.map Event.submit)).next = specs.length ∧
    (run (NewJobQueue c) (specs.map Event.submit)).jobChan
      = { buf := List.range specs.length, cap := c, closed := false, waiting := 0 } ∧
    GetAllJobs (run (NewJobQueue c) (specs.map Event.submit))
      = (List.range specs.length).reverse ∧
    (∀ id, id ∈ (run (NewJobQueue c) (specs.map Event.submit)).jobs →
      id ∈ specs.map (fun s => s.job.ID)) ∧
    (∀ (i : Nat) (s : JobSpec), specs[i]? = some s →
      (run (NewJobQueue c) (specs.map Event.submit)).mem i = s.job ∧
      (run (NewJobQueue c) (specs.map Event.submit)).jobs.lookup s.job.ID = some i) := by
  induction specs using List.reverseRecOn with
  | nil =>
    refine ⟨rfl, rfl, rfl, ?_, ?_⟩
    · intro id h; exact absurd h (AList.not_mem_empty id)
    · intro i s h; simp at h
  | append_singleton l x ih =>
    have hlen' : l.length < c := by
      simp only [List.length_append, List.length_singleton] at hlen; omega
    rw [List.map_append, List.nodup_append] at hnd
    obtain ⟨hndl, -, hdis⟩ := hnd
    obtain ⟨hnext, hchan, hall, hkeys, hmem⟩ := ih (le_of_lt hlen') hndl
    have hxfresh : x.job.ID ∉ (run (NewJobQueue c) (l.map Event.submit)).jobs := by
      intro h
      exact hdis (hkeys _ h) (by simp)
    rw [List.map_append, run_append]
    generalize run (NewJobQueue c) (l.map Event.submit) = S at hnext hchan hall hkeys hmem hxfresh
    simp only [List.map_cons, List.map_nil, run, List.foldl_cons, List.foldl_nil, Event.step]
    have hopen : (S.alloc x.job).1.jobChan.closed = false := by
      rw [alloc_jobChan, hchan]
    have hroom : (S.alloc x.job).1.jobChan.buf.length < (S.alloc x.job).1.jobChan.cap := by
      rw [alloc_jobChan, hchan]; simpa using hlen'
    have hno : ¬ (0 < (S.alloc x.job).1.jobChan.waiting ∧ (S.alloc x.job).1.jobChan.buf = []) := by
      rw [alloc_jobChan, hchan]; simp
    obtain ⟨-, hc⟩ := AddJob_room (S.alloc x.job).1 x.clk (S.alloc x.job).2 hopen hno hroom
    have hptr : (S.alloc x.job).2 = l.length := hnext
    have hmemA : (S.alloc x.job).1.mem = Function.update S.mem l.length x.job := by
      simp [JobQueue.alloc, hnext]
    have hjobsA : (S.alloc x.job).1.jobs = S.jobs := rfl
    have hjobs : (AddJob (S.alloc x.job).1 x.clk (S.alloc x.job).2).1.jobs
        = S.jobs.insert x.job.ID l.length := by
      rw [AddJob_jobs, hmemA, hjobsA, hptr]; simp
    refine ⟨?_, ?_, ?_, ?_, ?_⟩
    · rw [AddJob_next]; simp [JobQueue.alloc, hnext]
    · rw [hc, alloc_jobChan, hchan, hptr]
      simp [List.range_succ]
    · simp only [GetAllJobs] at hall ⊢
      rw [hjobs, AList.insert_entries_of_neg hxfresh]
      simp [hall, List.range_succ]
    · intro id hid
      rw [hjobs, AList.mem_insert] at hid
      rcases hid with rfl | hid
      · simp
      · have := hkeys id hid
        simp only [List.map_append, List.mem_append]
        exact Or.inl this
    · intro i s hi
      rw [AddJob_mem, hmemA, hjobs]
      by_cases hil : i < l.length
      · rw [List.getElem?_append_left hil] at hi
        obtain ⟨h1, h2⟩ := hmem i s hi
        have hne : s.job.ID ≠ x.job.ID := by
          intro he
          have hin : s.job.ID ∈ l.map (fun s => s.job.ID) :=
            List.mem_map.mpr ⟨s, List.getElem?_mem hi, rfl⟩
          exact hdis hin (by simp [he])
        refine ⟨?_, ?_⟩
        · rw [Function.update_noteq (Nat.ne_of_lt hil), h1]
        · rw [AList.lookup_insert_ne hne, h2]
      · have hieq : i = l.length := by
          have hlt : i < (l ++ [x]).length := by
            by_contra hcon
            rw [List.getElem?_eq_none (not_lt.mp hcon)] at hi
            exact absurd hi (by simp)
          simp only [List.length_append, List.length_singleton] at hlt
          omega
        subst hieq
        simp only [List.getElem?_concat_length, Option.some.injEq] at hi
        subst hi
        exact ⟨by simp, AList.lookup_insert _⟩

theorem successes_succ (wclk : Nat → Clock) (k : Nat) :
    successes wclk (k + 1) = successes wclk k ++ [Event.work (wclk k) true] := by
  simp [successes, List.range_succ]

theorem work_inv (S : JobQueue) (wclk : Nat → Clock) (N c : Nat)
    (hchan : S.jobChan = { buf := List.range N, cap := c, closed := false, waiting := 0 })
    (hS : ∀ i : Nat, i < N → S.jobs.lookup (S.mem i).ID = some i ∧ (S.mem i).RetryCount = 0)
    (k : Nat) (hk : k ≤ N) :
    (run S (successes wclk k)).jobs = S.jobs ∧
    (run S (successes wclk k)).jobChan
      = { buf := (List.range N).drop k, cap := c, closed := false, waiting := 0 } ∧
    (∀ i : Nat, i < k → ((run S (successes wclk k)).mem i).Status = StatusDone ∧
      ((run S (successes wclk k)).mem i).RetryCount = 0 ∧
      ((run S (successes wclk k)).mem i).ID = (S.mem i).ID) ∧
    (∀ i : Nat, k ≤ i → (run S (successes wclk k)).mem i = S.mem i) := by
  induction k with
  | zero =>
    refine ⟨rfl, by simpa [successes, run] using hchan, ?_, fun i _ => rfl⟩
    intro i hi; exact absurd hi (Nat.not_lt_zero i)
  | succ k ih =>
    have hkN : k < N := hk
    obtain ⟨hj, hc, hdone, hrest⟩ := ih (le_of_lt hkN)
    rw [successes_succ, run_append]
    generalize run S (successes wclk k) = T at hj hc hdone hrest
    have hbuf : T.jobChan.buf = k :: (List.range N).drop (k + 1) := by
      rw [hc]
      show (List.range N).drop k = _
      rw [List.drop_eq_getElem_cons (by simpa using hkN)]
      simp
    obtain ⟨hw, hr⟩ := workerStep_cons T (wclk k) true hbuf
    have hmem0 : T.afterRecv.mem = T.mem := by rw [hr]
    have hjobs0 : T.afterRecv.jobs = T.jobs := by rw [hr]
    have hchan0 : T.afterRecv.jobChan
        = { buf := (List.range N).drop (k + 1), cap := c, closed := false, waiting := 0 } := by
      rw [hr, hc]
    have hTk : T.mem k = S.mem k := hrest k le_rfl
    have hl0 : T.afterRecv.jobs.lookup (T.afterRecv.mem k).ID = some k := by
      rw [hmem0, hjobs0, hTk, hj]; exact (hS k hkN).1
    have hl1 : (inFlight T.afterRecv (wclk k) k).jobs.lookup (T.afterRecv.mem k).ID = some k := by
      rw [inFlight_jobs]; exact hl0
    have hrun : run T [Event.work (wclk k) true] =
        UpdateJobStatus (inFlight T.afterRecv (wclk k) k) ((wclk k).drop 2)
          (T.afterRecv.mem k).ID StatusDone "" := by
      simp only [run, List.foldl_cons, List.foldl_nil, Event.step, hw, processJob_ok]
    rw [hrun]
    refine ⟨?_, ?_, ?_, ?_⟩
    · rw [UpdateJobStatus_jobs, inFlight_jobs, hjobs0, hj]
    · rw [UpdateJobStatus_jobChan, inFlight_jobChan, hchan0]
    · intro i hi
      by_cases hik : i = k
      · subst hik
        rw [UpdateJobStatus_mem_same _ _ _ _ hl1, inFlight_mem_same _ _ hl0, hmem0, hTk]
        exact ⟨rfl, (hS i hkN).2, rfl⟩
      · have hlt : i < k := by omega
        rw [UpdateJobStatus_mem_other _ _ _ _ hl1 hik, inFlight_mem_other _ _ hl0 hik, hmem0]
        exact hdone i hlt
    · intro i hi
      have hik : i ≠ k := by omega
      rw [UpdateJobStatus_mem_other _ _ _ _ hl1 hik, inFlight_mem_other _ _ hl0 hik, hmem0]
      exact hrest i (by omega)

theorem countJob_done (st : Stats) (j : Job) (h : j.Status = StatusDone) :
    countJob st j = { st with done := st.done + 1 } := by
  have h1 : StatusDone ≠ StatusPending := by decide
  have h2 : StatusDone ≠ StatusProcessing := by decide
  simp [countJob, h, h1, h2]

theorem foldl_countJob_done (q : JobQueue) (l : List Ptr)
    (h : ∀ p ∈ l, (q.mem p).Status = StatusDone) (st : Stats) :
    l.foldl (fun st p => countJob st (q.mem p)) st = { st with done := st.done + l.length } := by
  induction l generalizing st with
  | nil => simp
  | cons p rest ih =>
    rw [List.foldl_cons, countJob_done st _ (h p (List.mem_cons_self _ _)),
      ih (fun p' hp' => h p' (List.mem_cons_of_mem _ hp'))]
    simp only [List.length_cons, Nat.cast_add, Nat.cast_one, Stats.mk.injEq, true_and, and_true]
    omega

/-- C7: let `N` requests be turned into jobs by `NewJob`, with pairwise
distinct identifiers, and submitted with `AddJob` to a new queue of capacity
at least `N`; let the workers then receive and process `N` jobs, every
execution succeeding.  Then every job is stored under its identifier with
status `DONE` and `RetryCount = 0`, the dispatch channel is empty (nothing was
enqueued again), and `GetStats`, on any enumeration order of `GetAllJobs`,
reports `total_jobs = N`, `pending = 0`, `processing = 0`, `done = N`,
`failed = 0`. -/
theorem C7_all_succeed (c : Nat) (specs : List JobSpec) (wclk : Nat → Clock)
    (hcap : specs.length ≤ c) (hnd : (specs.map (fun s => s.job.ID)).Nodup) :
    (∀ (i : Nat) (s : JobSpec), specs[i]? = some s →
      GetJob (allSucceed c specs wclk) s.job.ID = some i ∧
      ((allSucceed c specs wclk).mem i).ID = s.job.ID ∧
      ((allSucceed c specs wclk).mem i).Status = StatusDone ∧
      ((allSucceed c specs wclk).mem i).RetryCount = 0) ∧
    (allSucceed c specs wclk).jobChan.buf = [] ∧
    (∀ l : List Ptr, l.Perm (GetAllJobs (allSucceed c specs wclk)) →
      GetStats (allSucceed c specs wclk) l =
        { total_jobs := specs.length, pending := 0, processing := 0,
          done := specs.length, failed := 0 }) := by
  obtain ⟨-, hchan, hall, -, hmem⟩ := submit_inv c specs hcap hnd
  have hS : ∀ i : Nat, i < specs.length →
      (run (NewJobQueue c) (specs.map Event.submit)).jobs.lookup
        ((run (NewJobQueue c) (specs.map Event.submit)).mem i).ID = some i ∧
      ((run (NewJobQueue c) (specs.map Event.submit)).mem i).RetryCount = 0 := by
    intro i hi
    obtain ⟨h1, h2⟩ := hmem i specs[i] (List.getElem?_eq_getElem hi)
    rw [h1]
    exact ⟨h2, rfl⟩
  obtain ⟨hj, hc, hdone, -⟩ := work_inv _ wclk specs.length c hchan hS specs.length le_rfl
  have hF : allSucceed c specs wclk
      = run (run (NewJobQueue c) (specs.map Event.submit)) (successes wclk specs.length) := by
    rw [allSucceed, run_append]
  rw [← hF] at hj hc hdone
  have hlt : ∀ (i : Nat) (s : JobSpec), specs[i]? = some s → i < specs.length := by
    intro i s hi
    by_contra hcon
    rw [List.getElem?_eq_none (not_lt.mp hcon)] at hi
    exact absurd hi (by simp)
  refine ⟨?_, ?_, ?_⟩
  · intro i s hi
    obtain ⟨h1, h2⟩ := hmem i s hi
    obtain ⟨d1, d2, d3⟩ := hdone i (hlt i s hi)
    refine ⟨?_, ?_, d1, d2⟩
    · rw [GetJob, hj]; exact h2
    · rw [d3, h1]
  · rw [hc]; simp
  · intro l hl
    have hall' : GetAllJobs (allSucceed c specs wclk) = (List.range specs.length).reverse := by
      rw [← hall]; simp only [GetAllJobs, hj]
    rw [hall'] at hl
    have hlen : l.length = specs.length := by
      rw [hl.length_eq]; simp
    have hd : ∀ p ∈ l, ((allSucceed c specs wclk).mem p).Status = StatusDone := by
      intro p hp
      have hp' : p ∈ (List.range specs.length).reverse := hl.subset hp
      rw [List.mem_reverse, List.mem_range] at hp'
      exact (hdone p hp').1
    rw [GetStats, foldl_countJob_done _ l hd, hlen]
    simp

/-- C7 in the scenario of the spec: ten jobs, capacity 100. -/
theorem C7_all_succeed_witness :
    demoSpecs.length = 10 ∧ demoSpecs.length ≤ 100 ∧
    (demoSpecs.map (fun s => s.job.ID)).Nodup ∧
    (allSucceed 100 demoSpecs (fun _ => demoClock)).jobChan.buf = [] ∧
    GetStats (allSucceed 100 demoSpecs (fun _ => demoClock))
        (GetAllJobs (allSucceed 100 demoSpecs (fun _ => demoClock))) =
      { total_jobs := 10, pending := 0, processing := 0, done := 10, failed := 0 } :=
  have h0 : demoSpecs.length = 10 := by decide
  have h1 : demoSpecs.length ≤ 100 := by decide
  have h2 : (demoSpecs.map (fun s => s.job.ID)).Nodup := by decide
  have c := C7_all_succeed 100 demoSpecs (fun _ => demoClock) h1 h2
  ⟨h0, h1, h2, c.2.1, by
    have h := c.2.2 _ (List.Perm.refl _)
    rw [h0] at h
    exact h⟩

/-! ## C1: the retry budget -/

/-- C1 fails on the code, because `NewJob` can build an identifier that the
store already holds.  The two jobs of `demoCollision` are created by `NewJob`
at different instants of the same second and get the same identifier
(`generateID` takes the second and six letters picked by `UnixNano % 36`).
Both are submitted: `AddJob` replaces the first pointer in the store by the
second while both sit in the channel, and `processJob` addresses the store by
`job.ID`, so the stored job is re-submitted once for each of them.  After four
failed executions the stored job is `FAILED` with `RetryCount = 4`,
`MaxRetries = 3`, and it is still in the dispatch channel; the next execution
succeeds and leaves it `DONE` with `RetryCount = 4 > MaxRetries`. -/
theorem C1_id_collision :
    (demoClock 0 ≠ demoClockLater 0 ∧
      (NewJob demoClock "email" "x").ID = demoID ∧
      (NewJob demoClockLater "email" "x").ID = demoID) ∧
    ((run (NewJobQueue 2) (demoCollision.take 2)).jobs.lookup demoID = some 1 ∧
      (run (NewJobQueue 2) (demoCollision.take 2)).jobChan.buf = [0, 1] ∧
      (run (NewJobQueue 2) (demoCollision.take 3)).jobChan.buf = [1, 1]) ∧
    ((run (NewJobQueue 2) (demoCollision.take 6)).jobs.lookup demoID = some 1 ∧
      ((run (NewJobQueue 2) (demoCollision.take 6)).mem 1).Status = "FAILED" ∧
      ((run (NewJobQueue 2) (demoCollision.take 6)).mem 1).RetryCount = 4 ∧
      ((run (NewJobQueue 2) (demoCollision.take 6)).mem 1).MaxRetries = 3 ∧
      (run (NewJobQueue 2) (demoCollision.take 6)).jobChan.buf = [1]) ∧
    ((run (NewJobQueue 2) demoCollision).jobs.lookup demoID = some 1 ∧
      ((run (NewJobQueue 2) demoCollision).mem 1).Status = "DONE" ∧
      ((run (NewJobQueue 2) demoCollision).mem 1).RetryCount = 4 ∧
      ((run (NewJobQueue 2) demoCollision).mem 1).MaxRetries = 3 ∧
      ¬ (((run (NewJobQueue 2) demoCollision).mem 1).Status ≠ "FAILED" →
          ((run (NewJobQueue 2) demoCollision).mem 1).RetryCount
            ≤ ((run (NewJobQueue 2) demoCollision).mem 1).MaxRetries)) := by
  decide

/-! ## C3: submission to a full queue -/

/-- C3 as stated fails on an unbuffered queue.  The channel of
`demoUnbuffered` has capacity 0 and so holds capacity-many jobs; it is open,
a worker is blocked in the receive, the job (address 0) was created by
`NewJob` and its identifier is not stored.  `AddJob` does not return an
error: the send hands the job to the worker and `AddJob` returns `nil`. -/
theorem C3_counterexample :
    demoUnbuffered.jobChan.closed = false ∧
    demoUnbuffered.jobChan.buf.length = demoUnbuffered.jobChan.cap ∧
    demoUnbuffered.mem 0 = NewJob demoClock "email" "x" ∧
    (demoUnbuffered.mem 0).ID ∉ demoUnbuffered.jobs ∧
    (AddJob demoUnbuffered demoClock 0).2 = Outcome.ret none ∧
    (AddJob demoUnbuffered demoClock 0).2 ≠
      Outcome.ret (some "queue penuh, job tidak bisa ditambahkan") := by
  decide

/-- C3 (as amended): when the dispatch channel has capacity at least 1, has
not been closed and holds capacity-many jobs, and `job` is a job created by
`NewJob` whose identifier is not in the store, `AddJob` returns the error
"queue penuh, job tidak bisa ditambahkan" (queue full), leaves the channel as
it was (so the job is not handed to a worker), keeps every stored record
under its identifier with its status (no `Job` object changes), and stores
the new job: `GetJob` finds it, with status `PENDING`. -/
theorem C3_AddJob_full (q : JobQueue) (clk clkJ : Clock) (job : Ptr) (jobType payload : String)
    (hnew : q.mem job = NewJob clkJ jobType payload)
    (hfresh : (q.mem job).ID ∉ q.jobs)
    (hopen : q.jobChan.closed = false)
    (hcap : 1 ≤ q.jobChan.cap)
    (hfull : q.jobChan.buf.length = q.jobChan.cap) :
    (AddJob q clk job).2 = Outcome.ret (some "queue penuh, job tidak bisa ditambahkan") ∧
    (AddJob q clk job).1.jobChan = q.jobChan ∧
    (AddJob q clk job).1.mem = q.mem ∧
    (∀ id p, q.jobs.lookup id = some p →
      GetJob (AddJob q clk job).1 id = some p ∧
      ((AddJob q clk job).1.mem p).Status = (q.mem p).Status) ∧
    GetJob (AddJob q clk job).1 (q.mem job).ID = some job ∧
    ((AddJob q clk job).1.mem job).Status = "PENDING" := by
  obtain ⟨h2, hc⟩ := AddJob_full q clk job hopen
    (no_hand_of_full hcap (le_of_eq hfull.symm)) (le_of_eq hfull.symm)
  refine ⟨h2, hc, AddJob_mem q clk job, ?_, ?_, ?_⟩
  · intro id p hp
    have hne : id ≠ (q.mem job).ID := by
      rintro rfl
      exact hfresh (AList.lookup_isSome.mp (by simp [hp]))
    rw [GetJob, AddJob_jobs, AddJob_mem, AList.lookup_insert_ne hne]
    exact ⟨hp, rfl⟩
  · rw [GetJob, AddJob_jobs]; exact AList.lookup_insert _
  · rw [AddJob_mem, hnew]; rfl

/-- C3 (as amended) at a concrete state: `demoFull` has an open, full channel
of capacity 1; a second job is created and submitted, and is refused. -/
theorem C3_AddJob_full_witness :
    demoFullNew.mem 1 = NewJob demoClock2 "report" "y" ∧
    (demoFullNew.mem 1).ID ∉ demoFullNew.jobs ∧
    demoFullNew.jobChan.closed = false ∧
    1 ≤ demoFullNew.jobChan.cap ∧
    demoFullNew.jobChan.buf.length = demoFullNew.jobChan.cap ∧
    (AddJob demoFullNew demoClock 1).2
      = Outcome.ret (some "queue penuh, job tidak bisa ditambahkan") ∧
    (AddJob demoFullNew demoClock 1).1.jobChan = demoFullNew.jobChan ∧
    GetJob (AddJob demoFullNew demoClock 1).1 (demoFullNew.mem 1).ID = some 1 :=
  have h1 : demoFullNew.mem 1 = NewJob demoClock2 "report" "y" := by decide
  have h2 : (demoFullNew.mem 1).ID ∉ demoFullNew.jobs := by decide
  have h3 : demoFullNew.jobChan.closed = false := by decide
  have h4 : 1 ≤ demoFullNew.jobChan.cap := by decide
  have h5 : demoFullNew.jobChan.buf.length = demoFullNew.jobChan.cap := by decide
  have c := C3_AddJob_full demoFullNew demoClock demoClock2 1 "report" "y" h1 h2 h3 h4 h5
  ⟨h1, h2, h3, h4, h5, c.1, c.2.1, c.2.2.2.2.1⟩

/-! ## C4: a retry that the full channel rejects -/

/-- C4 as stated fails in two ways.  (1) In `demoBusy` job 0 is stored,
`PROCESSING`, within its retry budget, and the channel (capacity 1) is open
and full; `RetryJob` returns `false` and does not enqueue, but the status does
not stay `PROCESSING`: it is `PENDING`.  (2) In `demoUnbufferedBusy` the
channel has capacity 0, so it is full, and a worker is blocked in the receive;
`RetryJob` for the stored, `PROCESSING` job 0 does not return `false`: the
send hands the job to the worker and `RetryJob` returns `true`. -/
theorem C4_counterexample :
    (demoBusy.jobs.lookup demoID = some 0 ∧
      (demoBusy.mem 0).Status = "PROCESSING" ∧
      (demoBusy.mem 0).RetryCount < (demoBusy.mem 0).MaxRetries ∧
      demoBusy.jobChan.closed = false ∧
      demoBusy.jobChan.buf.length = demoBusy.jobChan.cap ∧
      (RetryJob demoBusy demoClock demoID).2 = Outcome.ret false ∧
      ((RetryJob demoBusy demoClock demoID).1.mem 0).Status = "PENDING" ∧
      ((RetryJob demoBusy demoClock demoID).1.mem 0).Status ≠ "PROCESSING") ∧
    (demoUnbufferedBusy.jobs.lookup demoID = some 0 ∧
      (demoUnbufferedBusy.mem 0).Status = "PROCESSING" ∧
      (demoUnbufferedBusy.mem 0).RetryCount < (demoUnbufferedBusy.mem 0).MaxRetries ∧
      demoUnbufferedBusy.jobChan.closed = false ∧
      demoUnbufferedBusy.jobChan.buf.length = demoUnbufferedBusy.jobChan.cap ∧
      (RetryJob demoUnbufferedBusy demoClock demoID).2 = Outcome.ret true) := by
  decide

/-- C4 (as amended): for a stored job that is `PROCESSING` with
`RetryCount < MaxRetries`, when the channel has capacity at least 1, has not
been closed and is full, `RetryJob` returns `false`, leaves the channel as it
was, and sets the status to `PENDING` (not `PROCESSING`, not `FAILED`).  The
counter is incremented (`intInc`; by one whenever `MaxRetries` is an `int`),
the error message is kept, and no other `Job` object and no entry of the
store changes. -/
theorem C4_RetryJob_full (q : JobQueue) (clk : Clock) (id : String) (p : Ptr)
    (hp : q.jobs.lookup id = some p)
    (_hst : (q.mem p).Status = "PROCESSING")
    (hrc : (q.mem p).RetryCount < (q.mem p).MaxRetries)
    (hopen : q.jobChan.closed = false)
    (hcap : 1 ≤ q.jobChan.cap)
    (hfull : q.jobChan.cap ≤ q.jobChan.buf.length) :
    (RetryJob q clk id).2 = Outcome.ret false ∧
    (RetryJob q clk id).1.jobChan = q.jobChan ∧
    ((RetryJob q clk id).1.mem p).Status = "PENDING" ∧
    ((RetryJob q clk id).1.mem p).Status ≠ "PROCESSING" ∧
    ((RetryJob q clk id).1.mem p).Status ≠ "FAILED" ∧
    ((RetryJob q clk id).1.mem p).RetryCount = intInc (q.mem p).RetryCount ∧
    ((q.mem p).MaxRetries ≤ maxInt →
      ((RetryJob q clk id).1.mem p).RetryCount = (q.mem p).RetryCount + 1) ∧
    ((RetryJob q clk id).1.mem p).ErrorMsg = (q.mem p).ErrorMsg ∧
    (∀ p', p' ≠ p → (RetryJob q clk id).1.mem p' = q.mem p') ∧
    (RetryJob q clk id).1.jobs = q.jobs := by
  have hx : intInc (q.mem p).RetryCount ≤ (q.mem p).MaxRetries := intInc_le (by omega)
  obtain ⟨h2, hc, hm⟩ := RetryJob_within_full q clk hp hx hopen
    (no_hand_of_full hcap hfull) hfull
  have hs : ((RetryJob q clk id).1.mem p).Status = "PENDING" := by
    rw [hm]; simp [Job.retried, StatusPending]
  refine ⟨h2, hc, hs, ?_, ?_, ?_, ?_, ?_, ?_, RetryJob_jobs q clk id⟩
  · rw [hs]; decide
  · rw [hs]; decide
  · rw [hm]; simp [Job.retried]
  · intro hmax
    rw [hm]; simp only [Function.update_same, Job.retried]
    exact intInc_of_lt hrc hmax
  · rw [hm]; simp [Job.retried]
  · intro p' hne; rw [hm, Function.update_noteq hne]

/-- C4 (as amended) at the concrete state `demoBusy`. -/
theorem C4_RetryJob_full_witness :
    demoBusy.jobs.lookup demoID = some 0 ∧
    (demoBusy.mem 0).Status = "PROCESSING" ∧
    (demoBusy.mem 0).RetryCount < (demoBusy.mem 0).MaxRetries ∧
    demoBusy.jobChan.closed = false ∧
    1 ≤ demoBusy.jobChan.cap ∧
    demoBusy.jobChan.cap ≤ demoBusy.jobChan.buf.length ∧
    (RetryJob demoBusy demoClock demoID).2 = Outcome.ret false ∧
    (RetryJob demoBusy demoClock demoID).1.jobChan = demoBusy.jobChan ∧
    ((RetryJob demoBusy demoClock demoID).1.mem 0).Status = "PENDING" :=
  have h1 : demoBusy.jobs.lookup demoID = some 0 := by decide
  have h2 : (demoBusy.mem 0).Status = StatusProcessing := by decide
  have h3 : (demoBusy.mem 0).RetryCount < (demoBusy.mem 0).MaxRetries := by decide
  have h4 : demoBusy.jobChan.closed = false := by decide
  have h5 : 1 ≤ demoBusy.jobChan.cap := by decide
  have h6 : demoBusy.jobChan.cap ≤ demoBusy.jobChan.buf.length := by decide
  have c := C4_RetryJob_full demoBusy demoClock demoID 0 h1 h2 h3 h4 h5 h6
  ⟨h1, h2, h3, h4, h5, h6, c.1, c.2.1, c.2.2.1⟩

/-! ## C5: operations after `Close` -/

/-- C5 fails on the code.  After `Close` (which returns normally),
(1) `RetryJob` for the in-flight job of `demoInFlightClosed`, which is within
its retry budget, panics with "send on closed channel", and so does
`processJob` when the execution fails;
(2) a worker that drains the job still buffered in the closed channel of
`demoBusyClosed` panics in the same way when the execution fails;
(3) `AddJob` on the closed queue panics after storing and logging the job. -/
theorem C5_closed_queue_panics :
    ((Close demoInFlight demoClock).2 = Outcome.ret () ∧
      demoInFlightClosed.jobChan.closed = true ∧
      (RetryJob demoInFlightClosed demoClock demoID).2 = Outcome.panic sendOnClosed ∧
      (processJob demoInFlightClosed demoClock 0 false).2 = Outcome.panic sendOnClosed) ∧
    ((workerStep demoBusyClosed demoClock false).map (fun r => r.2) =
      some (Outcome.panic sendOnClosed)) ∧
    ((AddJob demoFullClosed demoClock 1).2 = Outcome.panic sendOnClosed ∧
      GetJob (AddJob demoFullClosed demoClock 1).1 demoID2 = some 1) := by
  decide

end JobQueueModel
